import Mathlib

/-!
Shallow embedding of the food search-and-categorization core of the
Diet-Plan-Assistant repository (usda_service.py and app.py).

Strings are modelled by Lean strings; the string primitives the Python code
uses (strip, split, join, lower, replace, substring membership) are
re-implemented structurally over the underlying character list so that every
definition evaluates inside the kernel.  Python dictionaries holding nutrient
values are modelled as insertion-ordered association lists from keys to
rational numbers; Python floats are modelled by rationals, with Python's
round-half-to-even rounding implemented exactly on rationals.  The external
USDA HTTP backend is modelled as a function from request parameters to an
abstract response: a well-formed 200 body, a 200 body whose parsing raises, a
400 response, another non-200 status, or a network-level failure.
-/

/-! ### Character-list string primitives -/

/-- Does the first list occur as an initial segment of the second? -/
def leadsWith : List Char → List Char → Bool
  | [], _ => true
  | _ :: _, [] => false
  | p :: ps, c :: cs => p == c && leadsWith ps cs

/-- Does the first list occur as a contiguous run anywhere in the second? -/
def hasSub (pat : List Char) : List Char → Bool
  | [] => leadsWith pat []
  | c :: cs => leadsWith pat (c :: cs) || hasSub pat cs

/-- Python `pat in s` for strings: substring containment. -/
def strContains (s pat : String) : Bool :=
  hasSub pat.data s.data

/-- Python `s.lower()` (ASCII case folding, which covers all strings used). -/
def strLower (s : String) : String :=
  String.mk (s.data.map Char.toLower)

/-- Python `s.strip()`: remove leading and trailing whitespace. -/
def trimChars (s : String) : String :=
  String.mk (((s.data.dropWhile Char.isWhitespace).reverse.dropWhile
    Char.isWhitespace).reverse)

/-- Split a character list into maximal whitespace-free words
(Python `s.split()` with no separator argument). -/
def wordsAux : List Char → List Char → List (List Char)
  | cur, [] => if cur.isEmpty then [] else [cur.reverse]
  | cur, c :: cs =>
    if c.isWhitespace then
      if cur.isEmpty then wordsAux [] cs else cur.reverse :: wordsAux [] cs
    else wordsAux (c :: cur) cs

/-- Python `' '.join(words)`. -/
def joinWords : List (List Char) → List Char
  | [] => []
  | [w] => w
  | w :: ws => w ++ Char.ofNat 32 :: joinWords ws

/-- Python `' '.join(q.strip().split())`: collapse whitespace runs to single
spaces and trim the ends. -/
def collapseWs (q : String) : String :=
  String.mk (joinWords (wordsAux [] q.data))

/-- Fuelled core of Python `s.replace(pat, rep)`: scan left to right replacing
each non-overlapping occurrence.  The fuel is at least the length of the
remaining input plus one, so it never runs out. -/
def replaceFuel (pat rep : List Char) : Nat → List Char → List Char
  | 0, s => s
  | _ + 1, [] => []
  | fuel + 1, c :: cs =>
    if leadsWith pat (c :: cs) && !pat.isEmpty then
      rep ++ replaceFuel pat rep fuel (List.drop (pat.length - 1) cs)
    else
      c :: replaceFuel pat rep fuel cs

/-- Python `s.replace(pat, rep)`. -/
def strReplace (s pat rep : String) : String :=
  String.mk (replaceFuel pat.data rep.data (s.data.length + 1) s.data)

/-! ### Insertion-ordered dictionaries with rational values
(Python dict restricted to what `_extract_nutrients` needs). -/

/-- Python `d.get(k)`: the value stored under the key, if present. -/
def dictGet : List (String × ℚ) → String → Option ℚ
  | [], _ => none
  | p :: d, k => if p.1 = k then some p.2 else dictGet d k

/-- Python `d.get(k, v)`. -/
def dictGetD (d : List (String × ℚ)) (k : String) (v : ℚ) : ℚ :=
  (dictGet d k).getD v

/-- Python `k in d`. -/
def dictHas (d : List (String × ℚ)) (k : String) : Bool :=
  (dictGet d k).isSome

/-- Python `d[k] = v`: update in place if the key exists, else append,
preserving insertion order as Python dictionaries do. -/
def dictInsert : List (String × ℚ) → String → ℚ → List (String × ℚ)
  | [], k, v => [(k, v)]
  | p :: d, k, v => if p.1 = k then (k, v) :: d else p :: dictInsert d k v

/-! ### Kernel-reducible rational arithmetic

The `Mul`, `Div` and `Sub` instances on `ℚ` are `@[irreducible]`, which blocks
evaluation of concrete inputs inside the kernel.  The three wrappers below
compute the same operations through `Rat.divInt` (which does reduce); the
bridge lemmas prove them equal to the standard operations, so theorem
statements can use ordinary arithmetic. -/

/-- Multiplication on `ℚ`, written so that it evaluates in the kernel. -/
def qMul (a b : ℚ) : ℚ := Rat.divInt (a.num * b.num) (a.den * b.den)

/-- Division on `ℚ`, written so that it evaluates in the kernel. -/
def qDiv (a b : ℚ) : ℚ := Rat.divInt (a.num * b.den) (a.den * b.num)

/-- Subtraction on `ℚ`, written so that it evaluates in the kernel. -/
def qSub (a b : ℚ) : ℚ := Rat.divInt (a.num * b.den - b.num * a.den) (a.den * b.den)

theorem qMul_eq_mul (a b : ℚ) : qMul a b = a * b := by
  rw [qMul, ← Rat.divInt_mul_divInt', Rat.num_divInt_den, Rat.num_divInt_den]

theorem qDiv_eq_div (a b : ℚ) : qDiv a b = a / b := by
  rw [qDiv, Rat.div_def' a b]

theorem qSub_eq_sub (a b : ℚ) : qSub a b = a - b := by
  rw [qSub, ← Rat.divInt_sub_divInt _ _ (by exact_mod_cast a.den_nz) (by exact_mod_cast b.den_nz),
    Rat.num_divInt_den, Rat.num_divInt_den]

/-! ### Rounding (Python `round`, exact on rationals) -/

/-- The floor of a rational, computed directly so that it evaluates in the
kernel: flooring division of the numerator by the denominator. -/
def ratFloor (x : ℚ) : ℤ := Int.fdiv x.num x.den

/-- Python `round` to an integer: round half to even. -/
def roundHalfEven (x : ℚ) : ℤ :=
  if qSub x (Rat.divInt (ratFloor x) 1) < mkRat 1 2 then ratFloor x
  else if mkRat 1 2 < qSub x (Rat.divInt (ratFloor x) 1) then ratFloor x + 1
  else if ratFloor x % 2 = 0 then ratFloor x else ratFloor x + 1

/-- Python `round(x, 1)`. -/
def round1 (x : ℚ) : ℚ := Rat.divInt (roundHalfEven (qMul x 10)) 10

/-- Python `round(x, 0)`. -/
def round0 (x : ℚ) : ℚ := Rat.divInt (roundHalfEven x) 1

/-! ### Data model -/

/-- One element of a backend food entry's `foodNutrients` list:
`nutrient.get('nutrientId')`, `nutrient.get('nutrientName', '')`,
`nutrient.get('value', 0)` (with `none` standing for a missing or null
value). -/
structure NutrientEntry where
  nutrientId : Option Int
  nutrientName : String
  value : Option ℚ
deriving DecidableEq, Repr

/-- One food entry of a backend response body: `description` (missing
modelled as the empty string, exactly as `food.get('description', '')`),
`fdcId`, `dataType` and the nutrient list. -/
structure FoodEntry where
  description : String
  fdcId : Option Int
  dataType : Option String
  foodNutrients : List NutrientEntry
deriving DecidableEq, Repr

/-- A normalized search result as built by `_parse_food_data`. -/
structure Food where
  name : String
  nutrients : List (String × ℚ)
  fdcId : Option Int
  dataType : String
deriving DecidableEq, Repr

/-- The request parameter dictionary sent to the backend by
`_search_with_params` (the constant `api_key` and URL are omitted as they
carry no information). -/
structure SearchParams where
  query : String
  pageSize : Nat
  requireAllWords : Bool
  dataType : Option (List String)
deriving DecidableEq, Repr

/-- Abstract outcome of one HTTP request: a parseable 200 body, a 200 body
whose JSON parsing raises, a 400 response, another non-200 status, or a
network failure (`requests.exceptions.RequestException`). -/
inductive Resp where
  | ok (data : List FoodEntry)
  | malformed
  | badRequest
  | otherStatus
  | netFail
deriving DecidableEq, Repr

/-- The external backend: a deterministic response for every request. -/
def Backend := SearchParams → Resp

/-! ### QueryNormalizer: `_clean_query` and `_simplify_query` -/

/-- `USDAService._clean_query`: reject an empty query, collapse whitespace,
and reject results shorter than two characters. -/
def cleanQuery (query : String) : Option String :=
  if query = "" then none
  else if (collapseWs query).length < 2 then none
  else some (collapseWs query)

/-- The descriptor list removed by `USDAService._simplify_query`. -/
def descriptors : List String :=
  [", raw", ", cooked", ", boiled", ", baked", ", fried",
   ", grilled", ", roasted", ", steamed", ", fresh", ", dried",
   "raw ", "cooked ", "boiled ", "baked ", "fried ",
   "grilled ", "roasted ", "steamed ", "fresh ", "dried "]

/-- `USDAService._simplify_query`: lower-case, strip each descriptor
everywhere it occurs, then trim. -/
def simplifyQuery (query : String) : String :=
  trimChars (descriptors.foldl (fun s d => strReplace s d "") (strLower query))

/-! ### Nutrient extraction: `_extract_nutrients` -/

/-- The fixed `nutrient_mapping` table of `_extract_nutrients`. -/
def nutrientIdKey (id : Int) : Option String :=
  if id = 1003 then some "protein"
  else if id = 1004 then some "fat"
  else if id = 1005 then some "carbs"
  else if id = 1008 then some "calories"
  else none

/-- One iteration of the `_extract_nutrients` loop: skip missing or zero
values, map by nutrient id first (overwriting allowed), else fall back to
substring matches on the lower-cased nutrient name, but only for keys not
already filled. -/
def extractStep (nuts : List (String × ℚ)) (n : NutrientEntry) : List (String × ℚ) :=
  match n.value with
  | none => nuts
  | some v =>
    if v = 0 then nuts
    else
      match n.nutrientId.bind nutrientIdKey with
      | some key =>
        if key == "calories" then dictInsert nuts key (round0 v)
        else dictInsert nuts key (round1 v)
      | none =>
        if strContains (strLower n.nutrientName) "protein" && !dictHas nuts "protein" then
          dictInsert nuts "protein" (round1 v)
        else if strContains (strLower n.nutrientName) "carbohydrate" && !dictHas nuts "carbs" then
          dictInsert nuts "carbs" (round1 v)
        else if (strContains (strLower n.nutrientName) "total lipid"
            || strContains (strLower n.nutrientName) "fat, total") && !dictHas nuts "fat" then
          dictInsert nuts "fat" (round1 v)
        else if strContains (strLower n.nutrientName) "energy" && !dictHas nuts "calories" then
          dictInsert nuts "calories" (round0 v)
        else nuts

/-- `USDAService._extract_nutrients`: run the loop over the nutrient list,
then fill every one of the four keys still missing with 0. -/
def extractNutrients (l : List NutrientEntry) : List (String × ℚ) :=
  ["calories", "protein", "carbs", "fat"].foldl
    (fun d k => if dictHas d k then d else dictInsert d k 0)
    (l.foldl extractStep [])

/-! ### Response parsing: `_parse_food_data` -/

/-- The `Food` record `_parse_food_data` appends for an accepted entry. -/
def mkFoodRec (fe : FoodEntry) : Food :=
  { name := trimChars fe.description
    nutrients := extractNutrients fe.foodNutrients
    fdcId := fe.fdcId
    dataType := fe.dataType.getD "Unknown" }

/-- The loop of `_parse_food_data`, carrying the accumulated output list and
the set of lower-cased names of accepted entries (`seen_names`).  An entry is
skipped when its stripped description is empty, when its lower-cased name was
already accepted, or when both extracted calories and protein are zero; after
an entry is accepted, the loop stops as soon as the output has reached
`maxResults` entries. -/
def parseGo (maxResults : Nat) :
    List FoodEntry → List Food → List String → List Food
  | [], acc, _ => acc
  | fe :: rest, acc, seen =>
    if trimChars fe.description = "" then parseGo maxResults rest acc seen
    else if strLower (trimChars fe.description) ∈ seen then
      parseGo maxResults rest acc seen
    else if dictGetD (extractNutrients fe.foodNutrients) "calories" 0 = 0
        ∧ dictGetD (extractNutrients fe.foodNutrients) "protein" 0 = 0 then
      parseGo maxResults rest acc seen
    else if maxResults ≤ (acc ++ [mkFoodRec fe]).length then
      acc ++ [mkFoodRec fe]
    else
      parseGo maxResults rest (acc ++ [mkFoodRec fe])
        (strLower (trimChars fe.description) :: seen)

/-- `USDAService._parse_food_data`. -/
def parseFoodData (data : List FoodEntry) (maxResults : Nat) : List Food :=
  parseGo maxResults data [] []

/-! ### One search request: `_search_with_params` -/

/-- The parameter dictionary built at the top of `_search_with_params`:
`pageSize = min(max_results * 2, 50)`, and `dataType` present only when the
supplied list is truthy (non-`None` and non-empty). -/
def mkParams (query : String) (maxResults : Nat)
    (dataTypes : Option (List String)) (raw : Bool) : SearchParams :=
  { query := query
    pageSize := min (maxResults * 2) 50
    requireAllWords := raw
    dataType := match dataTypes with
      | some (d :: ds) => some (d :: ds)
      | _ => none }

/-- `USDAService._search_with_params`, instrumented with the list of requests
actually issued.  `Except.error ()` models an exception escaping the function
(the JSON parse of a 200 body raising; network failures are caught inside and
yield `[]`).  On a 400 response with `require_all_words` set, the same request
is retried once with the flag forced off. -/
def searchWithParams (b : Backend) (query : String) (maxResults : Nat)
    (dataTypes : Option (List String)) (requireAllWords : Bool) :
    Except Unit (List Food) × List SearchParams :=
  let p := mkParams query maxResults dataTypes requireAllWords
  match b p with
  | .ok data => (.ok (parseFoodData data maxResults), [p])
  | .malformed => (.error (), [p])
  | .badRequest =>
    if requireAllWords then
      match b { p with requireAllWords := false } with
      | .ok data => (.ok (parseFoodData data maxResults), [p, { p with requireAllWords := false }])
      | .malformed => (.error (), [p, { p with requireAllWords := false }])
      | _ => (.ok [], [p, { p with requireAllWords := false }])
    else (.ok [], [p])
  | .otherStatus => (.ok [], [p])
  | .netFail => (.ok [], [p])

/-! ### The fallback cascade: `search_foods` -/

/-- A strategy descriptor: the query to send, the data-type filter, and the
`require_all_words` flag. -/
abbrev Strat := String × Option (List String) × Bool

/-- The five strategy closures built by `search_foods`, in source order. -/
def searchStrategies (cq : String) : List Strat :=
  [(cq, some ["SR Legacy"], true),
   (cq, some ["Foundation"], true),
   (cq, some ["SR Legacy", "Foundation", "Survey (FNDDS)"], false),
   (cq, none, false),
   (simplifyQuery cq, none, false)]

/-- The result a single strategy contributes to the cascade, with an escaped
exception recovered to the empty list (the loop's `except` clause). -/
def stratResult (b : Backend) (n : Nat) (s : Strat) : List Food :=
  match (searchWithParams b s.1 n s.2.1 s.2.2).1 with
  | .error _ => []
  | .ok l => l

/-- The backend requests a single strategy issues. -/
def stratCalls (b : Backend) (n : Nat) (s : Strat) : List SearchParams :=
  (searchWithParams b s.1 n s.2.1 s.2.2).2

/-- The strategy loop of `search_foods`: try each strategy in order, treat an
escaped exception as no results, and return the first non-empty result
together with every request issued up to that point. -/
def tryStrategies (b : Backend) (n : Nat) : List Strat → List Food × List SearchParams
  | [] => ([], [])
  | s :: rest =>
    match (searchWithParams b s.1 n s.2.1 s.2.2).1 with
    | .error _ =>
      ((tryStrategies b n rest).1, stratCalls b n s ++ (tryStrategies b n rest).2)
    | .ok [] =>
      ((tryStrategies b n rest).1, stratCalls b n s ++ (tryStrategies b n rest).2)
    | .ok (f :: fs) => (f :: fs, stratCalls b n s)

/-- `USDAService.search_foods`, instrumented with the full request trace:
reject empty or whitespace-only queries, clean the query, and run the
cascade. -/
def searchFoodsT (b : Backend) (query : String) (maxResults : Nat) :
    List Food × List SearchParams :=
  if query = "" ∨ trimChars query = "" then ([], [])
  else
    match cleanQuery query with
    | none => ([], [])
    | some cq => tryStrategies b maxResults (searchStrategies cq)

/-- The value `search_foods` returns. -/
def searchFoods (b : Backend) (query : String) (maxResults : Nat) : List Food :=
  (searchFoodsT b query maxResults).1

/-- The backend requests `search_foods` issues. -/
def searchFoodsCalls (b : Backend) (query : String) (maxResults : Nat) :
    List SearchParams :=
  (searchFoodsT b query maxResults).2

/-! ### FoodClassifier, version 1: `categorize_food_by_nutrients` (app.py) -/

namespace App

/-- `protein_keywords` of app.py. -/
def protein_keywords : List String :=
  ["chicken", "beef", "pork", "fish", "salmon", "tuna", "turkey", "duck",
   "egg", "tofu", "tempeh", "seitan", "lentil", "bean", "chickpea", "pea",
   "yogurt", "cottage cheese", "protein", "meat", "shrimp", "crab", "lobster",
   "lamb", "veal", "venison", "bison", "quail", "sardine", "mackerel"]

/-- `carb_keywords` of app.py. -/
def carb_keywords : List String :=
  ["rice", "pasta", "bread", "potato", "sweet potato", "yam", "oat", "oatmeal",
   "quinoa", "barley", "wheat", "corn", "cereal", "noodle", "spaghetti",
   "tortilla", "bagel", "muffin", "cracker", "couscous", "bulgur", "farro"]

/-- `vegetable_keywords` of app.py. -/
def vegetable_keywords : List String :=
  ["broccoli", "spinach", "kale", "lettuce", "tomato", "cucumber", "pepper",
   "carrot", "celery", "onion", "garlic", "mushroom", "zucchini", "squash",
   "cauliflower", "cabbage", "bok choy", "asparagus", "green bean", "brussels",
   "eggplant", "radish", "beet", "turnip", "arugula", "chard", "collard"]

/-- `fat_keywords` of app.py. -/
def fat_keywords : List String :=
  ["oil", "butter", "avocado", "nut", "almond", "walnut", "cashew", "pecan",
   "peanut", "seed", "olive", "coconut", "cheese", "cream", "mayo", "ghee"]

/-- `categorize_food_by_nutrients` of app.py: keyword lists checked first in
the fixed order protein, carbs, vegetables, fats; then, when calories are
positive, the macro-ratio chain; `"proteins"` in every remaining case. -/
def categorize_food_by_nutrients (food : Food) : String :=
  let name_lower := strLower food.name
  let protein := dictGetD food.nutrients "protein" 0
  let carbs := dictGetD food.nutrients "carbs" 0
  let fat := dictGetD food.nutrients "fat" 0
  let calories := dictGetD food.nutrients "calories" 0
  if protein_keywords.any (fun k => strContains name_lower k) then "proteins"
  else if carb_keywords.any (fun k => strContains name_lower k) then "carbs"
  else if vegetable_keywords.any (fun k => strContains name_lower k) then "vegetables"
  else if fat_keywords.any (fun k => strContains name_lower k) then "fats"
  else if 0 < calories then
    if mkRat 3 10 < qDiv (qMul protein 4) calories then "proteins"
    else if mkRat 1 2 < qDiv (qMul fat 9) calories then "fats"
    else if mkRat 2 5 < qDiv (qMul carbs 4) calories then "carbs"
    else if carbs < 10 ∧ calories < 50 then "vegetables"
    else "proteins"
  else "proteins"

end App

/-! ### FoodClassifier, version 2: `USDAService.categorize_food` -/

namespace Usda

/-- `protein_keywords` of `USDAService.categorize_food`. -/
def protein_keywords : List String :=
  ["chicken", "beef", "pork", "fish", "salmon", "tuna", "turkey",
   "egg", "tofu", "tempeh", "seitan", "lentil", "bean", "chickpea",
   "yogurt", "cottage cheese", "protein", "meat", "shrimp", "crab",
   "lobster", "duck", "lamb", "veal", "venison"]

/-- `carb_keywords` of `USDAService.categorize_food`. -/
def carb_keywords : List String :=
  ["rice", "pasta", "bread", "potato", "sweet potato", "yam",
   "oat", "quinoa", "barley", "wheat", "corn", "cereal",
   "noodle", "tortilla", "bagel", "muffin", "cracker"]

/-- `vegetable_keywords` of `USDAService.categorize_food`. -/
def vegetable_keywords : List String :=
  ["broccoli", "spinach", "kale", "lettuce", "tomato", "cucumber",
   "pepper", "carrot", "celery", "onion", "garlic", "mushroom",
   "zucchini", "squash", "cauliflower", "cabbage", "bok choy",
   "asparagus", "green bean", "pea", "brussels sprout", "eggplant"]

/-- `fat_keywords` of `USDAService.categorize_food`. -/
def fat_keywords : List String :=
  ["oil", "butter", "avocado", "nut", "almond", "walnut", "cashew",
   "peanut", "seed", "olive", "coconut", "cheese", "cream"]

/-- `USDAService.categorize_food`: keyword lists only, checked in the fixed
order protein, carbs, vegetables, fats, with `"proteins"` as the default. -/
def categorize_food (food_name : String) : String :=
  let name_lower := strLower food_name
  if protein_keywords.any (fun k => strContains name_lower k) then "proteins"
  else if carb_keywords.any (fun k => strContains name_lower k) then "carbs"
  else if vegetable_keywords.any (fun k => strContains name_lower k) then "vegetables"
  else if fat_keywords.any (fun k => strContains name_lower k) then "fats"
  else "proteins"

end Usda

/-! ### Helper lemmas -/

theorem mkRat_eq_num_div_den (n : ℤ) (d : ℕ) : mkRat n d = (n : ℚ) / d := by
  rw [Rat.mkRat_eq_divInt, Rat.divInt_eq_div]
  norm_num

theorem ratFloor_le (x : ℚ) : (ratFloor x : ℚ) ≤ x := by
  rw [ratFloor, Int.fdiv_eq_ediv _ (Int.natCast_nonneg x.den)]
  have h := Rat.floor_def (q := x)
  rw [← h]
  exact Int.floor_le x

theorem ratFloor_nonneg (x : ℚ) (hx : 0 ≤ x) : 0 ≤ ratFloor x :=
  Int.fdiv_nonneg (Rat.num_nonneg.mpr hx) (Int.natCast_nonneg x.den)

theorem roundHalfEven_nonneg (x : ℚ) (hx : 0 ≤ x) : 0 ≤ roundHalfEven x := by
  have h := ratFloor_nonneg x hx
  unfold roundHalfEven
  split
  · exact h
  · split
    · omega
    · split
      · exact h
      · omega

theorem round1_nonneg (x : ℚ) (hx : 0 ≤ x) : 0 ≤ round1 x := by
  rw [round1, Rat.divInt_eq_div]
  apply div_nonneg _ (by norm_num)
  exact_mod_cast roundHalfEven_nonneg (qMul x 10) (by rw [qMul_eq_mul]; positivity)

theorem round0_nonneg (x : ℚ) (hx : 0 ≤ x) : 0 ≤ round0 x := by
  rw [round0, Rat.divInt_eq_div]
  apply div_nonneg _ (by norm_num)
  exact_mod_cast roundHalfEven_nonneg x hx

theorem dictGet_dictInsert_self (d : List (String × ℚ)) (k : String) (v : ℚ) :
    dictGet (dictInsert d k v) k = some v := by
  induction d with
  | nil => simp [dictInsert, dictGet]
  | cons p d ih =>
    by_cases h : p.1 = k
    · simp [dictInsert, dictGet, h]
    · simp [dictInsert, dictGet, h, ih]

theorem dictGet_dictInsert_ne (d : List (String × ℚ)) (k k' : String) (v : ℚ)
    (h : k' ≠ k) : dictGet (dictInsert d k v) k' = dictGet d k' := by
  have h' : k ≠ k' := Ne.symm h
  induction d with
  | nil => simp [dictInsert, dictGet, h']
  | cons p d ih =>
    by_cases hp : p.1 = k
    · rw [dictInsert, if_pos hp, dictGet, if_neg h', dictGet,
        if_neg (show ¬ p.1 = k' by rw [hp]; exact h')]
    · rw [dictInsert, if_neg hp]
      by_cases hp' : p.1 = k'
      · rw [dictGet, if_pos hp', dictGet, if_pos hp']
      · rw [dictGet, if_neg hp', dictGet, if_neg hp', ih]

theorem dictHas_dictInsert (d : List (String × ℚ)) (k k' : String) (v : ℚ) :
    dictHas (dictInsert d k v) k' ↔ (k' = k ∨ dictHas d k') := by
  by_cases h : k' = k
  · subst h
    simp [dictHas, dictGet_dictInsert_self]
  · simp [dictHas, dictGet_dictInsert_ne d k k' v h, h]

theorem dictInsert_values (d : List (String × ℚ)) (k : String) (v : ℚ)
    (P : ℚ → Prop) (hd : ∀ k2 v2, dictGet d k2 = some v2 → P v2) (hv : P v) :
    ∀ k2 v2, dictGet (dictInsert d k v) k2 = some v2 → P v2 := by
  intro k2 v2 hg
  by_cases h : k2 = k
  · subst h
    rw [dictGet_dictInsert_self] at hg
    exact Option.some_inj.mp hg ▸ hv
  · rw [dictGet_dictInsert_ne d k k2 v h] at hg
    exact hd k2 v2 hg

theorem categorize_app_of_protein_kw (f : Food)
    (h : App.protein_keywords.any (fun k => strContains (strLower f.name) k) = true) :
    App.categorize_food_by_nutrients f = "proteins" := by
  simp only [App.categorize_food_by_nutrients, h, if_true]

theorem categorize_app_of_carb_kw (f : Food)
    (hp : App.protein_keywords.any (fun k => strContains (strLower f.name) k) = false)
    (hc : App.carb_keywords.any (fun k => strContains (strLower f.name) k) = true) :
    App.categorize_food_by_nutrients f = "carbs" := by
  simp only [App.categorize_food_by_nutrients, hp, hc, if_true, Bool.false_eq_true, if_false]

theorem categorize_app_of_vegetable_kw (f : Food)
    (hp : App.protein_keywords.any (fun k => strContains (strLower f.name) k) = false)
    (hc : App.carb_keywords.any (fun k => strContains (strLower f.name) k) = false)
    (hv : App.vegetable_keywords.any (fun k => strContains (strLower f.name) k) = true) :
    App.categorize_food_by_nutrients f = "vegetables" := by
  simp only [App.categorize_food_by_nutrients, hp, hc, hv, if_true, Bool.false_eq_true, if_false]

theorem categorize_app_of_fat_kw (f : Food)
    (hp : App.protein_keywords.any (fun k => strContains (strLower f.name) k) = false)
    (hc : App.carb_keywords.any (fun k => strContains (strLower f.name) k) = false)
    (hv : App.vegetable_keywords.any (fun k => strContains (strLower f.name) k) = false)
    (hf : App.fat_keywords.any (fun k => strContains (strLower f.name) k) = true) :
    App.categorize_food_by_nutrients f = "fats" := by
  simp only [App.categorize_food_by_nutrients, hp, hc, hv, hf, if_true, Bool.false_eq_true,
    if_false]

theorem categorize_usda_of_protein_kw (s : String)
    (h : Usda.protein_keywords.any (fun k => strContains (strLower s) k) = true) :
    Usda.categorize_food s = "proteins" := by
  simp only [Usda.categorize_food, h, if_true]

theorem tryStrategies_cons (b : Backend) (n : Nat) (s : Strat) (rest : List Strat) :
    tryStrategies b n (s :: rest) =
      if stratResult b n s = [] then
        ((tryStrategies b n rest).1, stratCalls b n s ++ (tryStrategies b n rest).2)
      else (stratResult b n s, stratCalls b n s) := by
  rcases h : (searchWithParams b s.1 n s.2.1 s.2.2).1 with e | l
  · simp [tryStrategies, stratResult, h]
  · rcases l with _ | ⟨f, fs⟩
    · simp [tryStrategies, stratResult, h]
    · simp [tryStrategies, stratResult, h]

theorem tryStrategies_all_empty (b : Backend) (n : Nat) (L : List Strat)
    (h : ∀ s ∈ L, stratResult b n s = []) : (tryStrategies b n L).1 = [] := by
  induction L with
  | nil => rfl
  | cons s rest ih =>
    rw [tryStrategies_cons, if_pos (h s (by simp))]
    exact ih (fun s2 hs2 => h s2 (List.mem_cons_of_mem _ hs2))

theorem tryStrategies_result_cases (b : Backend) (n : Nat) (L : List Strat) :
    (tryStrategies b n L).1 = [] ∨ ∃ s ∈ L, (tryStrategies b n L).1 = stratResult b n s := by
  induction L with
  | nil => exact Or.inl rfl
  | cons s rest ih =>
    rw [tryStrategies_cons]
    by_cases h : stratResult b n s = []
    · rw [if_pos h]
      rcases ih with h2 | ⟨s2, hs2, he⟩
      · exact Or.inl h2
      · exact Or.inr ⟨s2, List.mem_cons_of_mem _ hs2, he⟩
    · rw [if_neg h]
      exact Or.inr ⟨s, by simp, rfl⟩

theorem wordsAux_nil_of_all_ws (l : List Char) (h : ∀ c ∈ l, c.isWhitespace) :
    wordsAux [] l = [] := by
  induction l with
  | nil => rfl
  | cons c cs ih =>
    have hc : c.isWhitespace := h c (by simp)
    simp only [wordsAux, hc, if_true, List.isEmpty_nil]
    exact ih (fun c2 hc2 => h c2 (List.mem_cons_of_mem _ hc2))

theorem all_ws_of_trim_empty (q : String) (h : trimChars q = "") :
    ∀ c ∈ q.data, c.isWhitespace := by
  have hdata : (((q.data.dropWhile Char.isWhitespace).reverse.dropWhile
      Char.isWhitespace).reverse) = [] := by
    have := congrArg String.data h
    simpa [trimChars] using this
  rw [List.reverse_eq_nil_iff, List.dropWhile_eq_nil_iff] at hdata
  intro c hc
  rw [← List.takeWhile_append_dropWhile (p := Char.isWhitespace) (l := q.data),
    List.mem_append] at hc
  rcases hc with hc | hc
  · exact List.mem_takeWhile_imp hc
  · exact hdata c (List.mem_reverse.mpr hc)

theorem collapseWs_of_trim_empty (q : String) (h : trimChars q = "") :
    collapseWs q = "" := by
  rw [collapseWs, wordsAux_nil_of_all_ws q.data (all_ws_of_trim_empty q h)]
  rfl

theorem searchFoodsT_of_clean_some (b : Backend) (q cq : String) (n : Nat)
    (h : cleanQuery q = some cq) :
    searchFoodsT b q n = tryStrategies b n (searchStrategies cq) := by
  rw [searchFoodsT]
  have hq : ¬(q = "" ∨ trimChars q = "") := by
    rintro (rfl | ht)
    · simp [cleanQuery] at h
    · rw [cleanQuery] at h
      by_cases hq0 : q = ""
      · simp [hq0] at h
      · rw [if_neg hq0, collapseWs_of_trim_empty q ht] at h
        simp at h
  rw [if_neg hq, h]

theorem parseGo_length (n : Nat) (data : List FoodEntry) :
    ∀ (acc : List Food) (seen : List String),
    acc.length < n → (parseGo n data acc seen).length ≤ n := by
  induction data with
  | nil => intro acc seen h; simp only [parseGo]; omega
  | cons fe rest ih =>
    intro acc seen h
    simp only [parseGo]
    split
    · exact ih acc seen h
    · split
      · exact ih acc seen h
      · split
        · exact ih acc seen h
        · split
          · simp only [List.length_append, List.length_singleton]
            omega
          · rename_i hlen
            apply ih
            simp only [List.length_append, List.length_singleton] at hlen ⊢
            omega

theorem parseGo_mem (n : Nat) (data : List FoodEntry) :
    ∀ (acc : List Food) (seen : List String) (f : Food),
    f ∈ parseGo n data acc seen → f ∈ acc ∨ ∃ fe ∈ data, f = mkFoodRec fe := by
  induction data with
  | nil => intro acc seen f hf; simp only [parseGo] at hf; exact Or.inl hf
  | cons fe rest ih =>
    intro acc seen f hf
    simp only [parseGo] at hf
    split at hf
    · rcases ih acc seen f hf with h | ⟨fe2, hmem, he⟩
      · exact Or.inl h
      · exact Or.inr ⟨fe2, List.mem_cons_of_mem _ hmem, he⟩
    · split at hf
      · rcases ih acc seen f hf with h | ⟨fe2, hmem, he⟩
        · exact Or.inl h
        · exact Or.inr ⟨fe2, List.mem_cons_of_mem _ hmem, he⟩
      · split at hf
        · rcases ih acc seen f hf with h | ⟨fe2, hmem, he⟩
          · exact Or.inl h
          · exact Or.inr ⟨fe2, List.mem_cons_of_mem _ hmem, he⟩
        · split at hf
          · rcases List.mem_append.mp hf with h | h
            · exact Or.inl h
            · exact Or.inr ⟨fe, by simp, by simpa using h⟩
          · rcases ih _ _ f hf with h | ⟨fe2, hmem, he⟩
            · rcases List.mem_append.mp h with h2 | h2
              · exact Or.inl h2
              · exact Or.inr ⟨fe, by simp, by simpa using h2⟩
            · exact Or.inr ⟨fe2, List.mem_cons_of_mem _ hmem, he⟩

theorem parseGo_invariant (n : Nat) (data : List FoodEntry) :
    ∀ (acc : List Food) (seen : List String),
    (∀ f ∈ acc, strLower f.name ∈ seen) →
    List.Pairwise (fun f g => strLower f.name ≠ strLower g.name) acc →
    (∀ f ∈ acc, f.name ≠ "" ∧
      ¬(dictGetD f.nutrients "calories" 0 = 0 ∧ dictGetD f.nutrients "protein" 0 = 0)) →
    List.Pairwise (fun f g => strLower f.name ≠ strLower g.name) (parseGo n data acc seen) ∧
    (∀ f ∈ parseGo n data acc seen, f.name ≠ "" ∧
      ¬(dictGetD f.nutrients "calories" 0 = 0 ∧ dictGetD f.nutrients "protein" 0 = 0)) := by
  induction data with
  | nil =>
    intro acc seen _ hpair hgood
    simp only [parseGo]
    exact ⟨hpair, hgood⟩
  | cons fe rest ih =>
    intro acc seen hseen hpair hgood
    simp only [parseGo]
    split
    · exact ih acc seen hseen hpair hgood
    · split
      · exact ih acc seen hseen hpair hgood
      · split
        · exact ih acc seen hseen hpair hgood
        · rename_i hname hdup hpoor
          have hnewpair :
              List.Pairwise (fun f g => strLower f.name ≠ strLower g.name)
                (acc ++ [mkFoodRec fe]) := by
            rw [List.pairwise_append]
            refine ⟨hpair, List.pairwise_singleton _ _, ?_⟩
            intro a ha b hb
            rw [List.mem_singleton] at hb
            subst hb
            intro heq
            exact hdup (heq ▸ hseen a ha)
          have hnewgood : ∀ f ∈ acc ++ [mkFoodRec fe], f.name ≠ "" ∧
              ¬(dictGetD f.nutrients "calories" 0 = 0 ∧
                dictGetD f.nutrients "protein" 0 = 0) := by
            intro f hf
            rcases List.mem_append.mp hf with h | h
            · exact hgood f h
            · rw [List.mem_singleton] at h
              subst h
              exact ⟨hname, hpoor⟩
          split
          · exact ⟨hnewpair, hnewgood⟩
          · apply ih
            · intro f hf
              rcases List.mem_append.mp hf with h | h
              · exact List.mem_cons_of_mem _ (hseen f h)
              · rw [List.mem_singleton] at h
                subst h
                exact List.mem_cons_self _ _
            · exact hnewpair
            · exact hnewgood

theorem searchWithParams_ok (b : Backend) (q : String) (n : Nat)
    (dts : Option (List String)) (raw : Bool) (l : List Food)
    (h : (searchWithParams b q n dts raw).1 = .ok l) :
    l = [] ∨ ∃ data, l = parseFoodData data n := by
  rw [searchWithParams] at h
  rcases h1 : b (mkParams q n dts raw) with data | _ | _ | _ | _ <;>
    simp only [h1] at h
  · injection h with h2
    exact Or.inr ⟨data, h2.symm⟩
  · cases h
  · rcases hraw : raw with _ | _
    · rw [hraw] at h
      simp only [Bool.false_eq_true, if_false] at h
      cases h
      exact Or.inl rfl
    · rw [hraw] at h
      simp only [if_true] at h
      rcases h2 : b { mkParams q n dts true with requireAllWords := false } with
        data2 | _ | _ | _ | _ <;> simp only [h2] at h
      · cases h
        exact Or.inr ⟨data2, rfl⟩
      · cases h
      · cases h; exact Or.inl rfl
      · cases h; exact Or.inl rfl
      · cases h; exact Or.inl rfl
  · cases h
    exact Or.inl rfl
  · cases h
    exact Or.inl rfl

theorem nutrientIdKey_mem (id : Int) (k : String) (h : nutrientIdKey id = some k) :
    k ∈ ["calories", "protein", "carbs", "fat"] := by
  rw [nutrientIdKey] at h
  split_ifs at h <;> simp_all

theorem extractStep_keys (acc : List (String × ℚ)) (e : NutrientEntry)
    (hacc : ∀ k2, dictHas acc k2 = true → k2 ∈ ["calories", "protein", "carbs", "fat"]) :
    ∀ k, dictHas (extractStep acc e) k = true →
      k ∈ ["calories", "protein", "carbs", "fat"] := by
  intro k h
  rw [extractStep] at h
  rcases hv : e.value with _ | v
  · rw [hv] at h
    exact hacc k h
  · rw [hv] at h
    simp only at h
    by_cases h0 : v = 0
    · rw [if_pos h0] at h
      exact hacc k h
    · rw [if_neg h0] at h
      rcases hkey : e.nutrientId.bind nutrientIdKey with _ | key <;> rw [hkey] at h
      · simp only at h
        split_ifs at h <;>
          first
          | (rcases (dictHas_dictInsert _ _ _ _).mp h with h2 | h2
             · simp [h2]
             · exact hacc k h2)
          | exact hacc k h
      · simp only at h
        have hk4 : key ∈ ["calories", "protein", "carbs", "fat"] := by
          rcases Option.bind_eq_some.mp hkey with ⟨id, _, hid⟩
          exact nutrientIdKey_mem id key hid
        split_ifs at h <;>
          (rcases (dictHas_dictInsert _ _ _ _).mp h with h2 | h2
           · exact h2 ▸ hk4
           · exact hacc k h2)

theorem extractFold_keys (nl : List NutrientEntry) :
    ∀ (acc : List (String × ℚ)),
    (∀ k2, dictHas acc k2 = true → k2 ∈ ["calories", "protein", "carbs", "fat"]) →
    ∀ k, dictHas (nl.foldl extractStep acc) k = true →
      k ∈ ["calories", "protein", "carbs", "fat"] := by
  induction nl with
  | nil => intro acc hacc k h; exact hacc k h
  | cons e rest ih =>
    intro acc hacc k h
    exact ih (extractStep acc e) (extractStep_keys acc e hacc) k h

theorem defaultFold_has (ks : List String) :
    ∀ (d : List (String × ℚ)) (k : String),
    dictHas (ks.foldl (fun d k => if dictHas d k then d else dictInsert d k 0) d) k = true ↔
      (dictHas d k = true ∨ k ∈ ks) := by
  induction ks with
  | nil => intro d k; simp
  | cons k0 ks ih =>
    intro d k
    simp only [List.foldl_cons]
    rw [ih]
    constructor
    · rintro (h | h)
      · split_ifs at h with h0
        · exact Or.inl h
        · rcases (dictHas_dictInsert _ _ _ _).mp h with h2 | h2
          · exact Or.inr (h2 ▸ List.mem_cons_self _ _)
          · exact Or.inl h2
      · exact Or.inr (List.mem_cons_of_mem _ h)
    · rintro (h | h)
      · left
        split_ifs with h0
        · exact h
        · exact (dictHas_dictInsert _ _ _ _).mpr (Or.inr h)
      · rcases List.mem_cons.mp h with h2 | h2
        · left
          split_ifs with h0
          · exact h2 ▸ h0
          · exact (dictHas_dictInsert _ _ _ _).mpr (Or.inl h2)
        · exact Or.inr h2

theorem extractNutrients_keys (nl : List NutrientEntry) (k : String) :
    dictHas (extractNutrients nl) k = true ↔
      k ∈ ["calories", "protein", "carbs", "fat"] := by
  rw [extractNutrients, defaultFold_has]
  constructor
  · rintro (h | h)
    · exact extractFold_keys nl [] (by intro k2 h2; simp [dictHas, dictGet] at h2) k h
    · exact h
  · intro h
    exact Or.inr h

theorem extractStep_values (acc : List (String × ℚ)) (e : NutrientEntry) (P : ℚ → Prop)
    (hacc : ∀ k v, dictGet acc k = some v → P v)
    (he : ∀ v, e.value = some v → P (round1 v) ∧ P (round0 v)) :
    ∀ k v, dictGet (extractStep acc e) k = some v → P v := by
  intro k v h
  rw [extractStep] at h
  rcases hv : e.value with _ | v0
  · rw [hv] at h
    exact hacc k v h
  · rw [hv] at h
    simp only at h
    by_cases h0 : v0 = 0
    · rw [if_pos h0] at h
      exact hacc k v h
    · rw [if_neg h0] at h
      rcases hkey : e.nutrientId.bind nutrientIdKey with _ | key <;> rw [hkey] at h
      · simp only at h
        split_ifs at h <;>
          first
          | exact dictInsert_values acc _ _ P hacc (he v0 hv).1 k v h
          | exact dictInsert_values acc _ _ P hacc (he v0 hv).2 k v h
          | exact hacc k v h
      · simp only at h
        split_ifs at h
        · exact dictInsert_values acc _ _ P hacc (he v0 hv).2 k v h
        · exact dictInsert_values acc _ _ P hacc (he v0 hv).1 k v h

theorem extractFold_values (nl : List NutrientEntry) (P : ℚ → Prop) :
    ∀ (acc : List (String × ℚ)),
    (∀ k v, dictGet acc k = some v → P v) →
    (∀ e ∈ nl, ∀ v, e.value = some v → P (round1 v) ∧ P (round0 v)) →
    ∀ k v, dictGet (nl.foldl extractStep acc) k = some v → P v := by
  induction nl with
  | nil => intro acc hacc _ k v h; exact hacc k v h
  | cons e rest ih =>
    intro acc hacc hsrc k v h
    refine ih (extractStep acc e)
      (extractStep_values acc e P hacc (hsrc e (by simp))) ?_ k v h
    intro e2 he2 v2 hv2
    exact hsrc e2 (List.mem_cons_of_mem _ he2) v2 hv2

theorem defaultFold_values (ks : List String) (P : ℚ → Prop) (h0 : P 0) :
    ∀ (d : List (String × ℚ)),
    (∀ k v, dictGet d k = some v → P v) →
    ∀ k v, dictGet (ks.foldl (fun d k => if dictHas d k then d else dictInsert d k 0) d) k
      = some v → P v := by
  induction ks with
  | nil => intro d hd k v h; exact hd k v h
  | cons k0 ks ih =>
    intro d hd k v h
    simp only [List.foldl_cons] at h
    refine ih _ ?_ k v h
    intro k2 v2 h2
    split_ifs at h2 with hh
    · exact hd k2 v2 h2
    · exact dictInsert_values d _ _ P hd h0 k2 v2 h2

theorem extractNutrients_values (nl : List NutrientEntry) (P : ℚ → Prop) (h0 : P 0)
    (hsrc : ∀ e ∈ nl, ∀ v, e.value = some v → P (round1 v) ∧ P (round0 v)) :
    ∀ k v, dictGet (extractNutrients nl) k = some v → P v := by
  rw [extractNutrients]
  exact defaultFold_values _ P h0 _
    (extractFold_values nl P [] (by intro k v h; simp [dictGet] at h) hsrc)

theorem searchFoods_shape (b : Backend) (q : String) (n : Nat) :
    searchFoods b q n = [] ∨ ∃ data, searchFoods b q n = parseFoodData data n := by
  rw [searchFoods, searchFoodsT]
  split
  · exact Or.inl rfl
  · rcases hc : cleanQuery q with _ | cq
    · exact Or.inl rfl
    · simp only
      rcases tryStrategies_result_cases b n (searchStrategies cq) with h | ⟨s, _, he⟩
      · exact Or.inl h
      · rw [he]
        simp only [stratResult]
        rcases hr : (searchWithParams b s.1 n s.2.1 s.2.2).1 with e | l
        · exact Or.inl rfl
        · rcases searchWithParams_ok b s.1 n s.2.1 s.2.2 l hr with h2 | ⟨data, h2⟩
          · exact Or.inl h2
          · exact Or.inr ⟨data, h2⟩

/-! ### Concrete fixtures used by witnesses and counterexamples -/

/-- A well-formed backend entry for eggs carrying a protein value. -/
def eggEntry : FoodEntry :=
  { description := "Egg", fdcId := some 1, dataType := some "SR Legacy",
    foodNutrients := [{ nutrientId := some 1003, nutrientName := "Protein", value := some 6 }] }

/-- A backend that answers only the SR Legacy strategy, with one egg entry. -/
def bSR : Backend := fun p =>
  if p.dataType = some ["SR Legacy"] then .ok [eggEntry] else .otherStatus

/-- A backend whose SR Legacy response body fails to parse and which returns
a non-200 status for everything else. -/
def bErrAll : Backend := fun p =>
  if p.dataType = some ["SR Legacy"] then .malformed else .otherStatus

/-- C7: for every query whose cleaning yields `None` — empty, whitespace-only,
or shorter than two characters after collapsing whitespace runs and trimming —
`search_foods` returns the empty list without issuing any backend request. -/
theorem short_query_returns_empty_without_calls (b : Backend) (q : String) (n : Nat) :
    (cleanQuery q = none ↔ (collapseWs q).length < 2) ∧
    (cleanQuery q = none → searchFoods b q n = [] ∧ searchFoodsCalls b q n = []) := by
  constructor
  · constructor
    · intro h
      rw [cleanQuery] at h
      by_cases h0 : q = ""
      · subst h0
        decide
      · rw [if_neg h0] at h
        by_cases h1 : (collapseWs q).length < 2
        · exact h1
        · rw [if_neg h1] at h
          cases h
    · intro h
      rw [cleanQuery]
      by_cases h0 : q = ""
      · rw [if_pos h0]
      · rw [if_neg h0, if_pos h]
  · intro h
    have hT : searchFoodsT b q n = ([], []) := by
      rw [searchFoodsT]
      split
      · rfl
      · rw [h]
    constructor
    · rw [searchFoods, hT]
    · rw [searchFoodsCalls, hT]

theorem short_query_returns_empty_without_calls_witness :
    cleanQuery " a " = none ∧ searchFoods bSR " a " 5 = [] ∧
      searchFoodsCalls bSR " a " 5 = [] := by
  have hnone : cleanQuery " a " = none := by decide
  exact ⟨hnone, (short_query_returns_empty_without_calls bSR " a " 5).2 hnone⟩

/-- C9: a 400 response on a request with `require_all_words = true` triggers
exactly one retry of the same request with the flag forced off; a strategy
never issues more than two requests; with the flag already off, exactly one
request is issued, so no retry happens. -/
theorem require_all_words_retry (b : Backend) (q : String) (n : Nat)
    (dts : Option (List String)) :
    ((searchWithParams b q n dts false).2 = [mkParams q n dts false]) ∧
    (∀ raw, (searchWithParams b q n dts raw).2.length ≤ 2) ∧
    (b (mkParams q n dts true) = .badRequest →
      (searchWithParams b q n dts true).2 =
        [mkParams q n dts true,
         { mkParams q n dts true with requireAllWords := false }]) := by
  refine ⟨?_, ?_, ?_⟩
  · rw [searchWithParams]
    rcases h : b (mkParams q n dts false) with _ | _ | _ | _ | _ <;> simp [h]
  · intro raw
    rw [searchWithParams]
    rcases h : b (mkParams q n dts raw) with _ | _ | _ | _ | _ <;> simp only [h]
    · simp
    · simp
    · rcases raw with _ | _
      · simp
      · simp only [if_true]
        rcases h2 : b { mkParams q n dts true with requireAllWords := false } with
          _ | _ | _ | _ | _ <;> simp [h2]
    · simp
    · simp
  · intro hbad
    rw [searchWithParams]
    simp only [hbad, if_true]
    rcases h2 : b { mkParams q n dts true with requireAllWords := false } with
      _ | _ | _ | _ | _ <;> simp [h2]

theorem require_all_words_retry_witness :
    (fun _ => Resp.badRequest : Backend)
        (mkParams "egg" 5 (some ["SR Legacy"]) true) = .badRequest ∧
    (searchWithParams (fun _ => Resp.badRequest) "egg" 5 (some ["SR Legacy"]) true).2 =
      [mkParams "egg" 5 (some ["SR Legacy"]) true,
       { mkParams "egg" 5 (some ["SR Legacy"]) true with requireAllWords := false }] ∧
    (searchWithParams (fun _ => Resp.badRequest) "egg" 5 (some ["SR Legacy"]) false).2 =
      [mkParams "egg" 5 (some ["SR Legacy"]) false] := by
  refine ⟨rfl, ?_, ?_⟩
  · exact (require_all_words_retry (fun _ => Resp.badRequest) "egg" 5
      (some ["SR Legacy"])).2.2 rfl
  · exact (require_all_words_retry (fun _ => Resp.badRequest) "egg" 5
      (some ["SR Legacy"])).1

/-- C2: no exception escapes `search_foods`: a strategy whose request raises
is treated as yielding no results and the cascade moves on; if every strategy
yields nothing, the result is the empty list; and the result is always either
empty or exactly one strategy's (recovered) output. -/
theorem search_error_recovery (b : Backend) (q : String) (n : Nat) :
    (∀ (s : Strat) (rest : List Strat),
      (searchWithParams b s.1 n s.2.1 s.2.2).1 = .error () →
      (tryStrategies b n (s :: rest)).1 = (tryStrategies b n rest).1) ∧
    (∀ cq, cleanQuery q = some cq →
      (∀ s ∈ searchStrategies cq, stratResult b n s = []) →
      searchFoods b q n = []) ∧
    (searchFoods b q n = [] ∨
      ∃ s ∈ searchStrategies ((cleanQuery q).getD ""),
        searchFoods b q n = stratResult b n s) := by
  refine ⟨?_, ?_, ?_⟩
  · intro s rest he
    have hempty : stratResult b n s = [] := by
      rw [stratResult, he]
    rw [tryStrategies_cons, if_pos hempty]
  · intro cq hcq hall
    rw [searchFoods, searchFoodsT_of_clean_some b q cq n hcq]
    exact tryStrategies_all_empty b n _ hall
  · rcases hq : cleanQuery q with _ | cq
    · left
      rw [searchFoods, searchFoodsT]
      split
      · rfl
      · rw [hq]
    · rw [searchFoods, searchFoodsT_of_clean_some b q cq n hq]
      simp only [hq, Option.getD_some]
      exact tryStrategies_result_cases b n (searchStrategies cq)

theorem search_error_recovery_witness :
    cleanQuery "egg" = some "egg" ∧
    (∀ s ∈ searchStrategies "egg", stratResult bErrAll 5 s = []) ∧
    searchFoods bErrAll "egg" 5 = [] := by
  refine ⟨by decide, by decide, ?_⟩
  exact (search_error_recovery bErrAll "egg" 5).2.1 "egg" (by decide) (by decide)

/-- C6 counterexample: with `max_results = 0` the parse loop's cap check runs
only after an entry has been appended, so `search_foods` can return one
record, violating the claim's bound for every integer. -/
theorem search_zero_max_results_counterexample :
    ¬ ((searchFoods bSR "egg" 0).length ≤ 0) := by decide

/-- C6 (amended): for every positive bound `n`, `search_foods` returns at
most `n` records, whatever the backend sends back. -/
theorem search_respects_max_results (b : Backend) (q : String) (n : Nat)
    (h : 1 ≤ n) : (searchFoods b q n).length ≤ n := by
  rcases searchFoods_shape b q n with h2 | ⟨data, h2⟩
  · rw [h2]
    simp
  · rw [h2, parseFoodData]
    exact parseGo_length n data [] [] (by simpa using h)

theorem search_respects_max_results_witness :
    1 ≤ 3 ∧ (searchFoods bSR "egg" 3).length ≤ 3 :=
  ⟨by decide, search_respects_max_results bSR "egg" 3 (by decide)⟩

theorem tryStrategies_cons_empty (b : Backend) (n : Nat) (s : Strat) (rest : List Strat)
    (h : stratResult b n s = []) :
    (tryStrategies b n (s :: rest)).1 = (tryStrategies b n rest).1 ∧
    (tryStrategies b n (s :: rest)).2 = stratCalls b n s ++ (tryStrategies b n rest).2 := by
  rw [tryStrategies_cons, if_pos h]
  exact ⟨rfl, rfl⟩

theorem tryStrategies_cons_nonempty (b : Backend) (n : Nat) (s : Strat) (rest : List Strat)
    (h : stratResult b n s ≠ []) :
    (tryStrategies b n (s :: rest)).1 = stratResult b n s ∧
    (tryStrategies b n (s :: rest)).2 = stratCalls b n s := by
  rw [tryStrategies_cons, if_neg h]
  exact ⟨rfl, rfl⟩

/-- C1: for a query that cleans to `cq`, `search_foods` tries exactly the five
fixed strategies in priority order — (1) SR Legacy with require-all-words, (2)
Foundation with require-all-words, (3) SR Legacy + Foundation + Survey (FNDDS)
without require-all-words, (4) no data-type filter, all on `cq`, and (5) no
filter on the simplified query — returning the first strategy's non-empty
result, issuing no request of any later strategy, and never merging results
across strategies. -/
theorem search_cascade_priority_order (b : Backend) (q cq : String) (n : Nat)
    (h : cleanQuery q = some cq) :
    (stratResult b n (cq, some ["SR Legacy"], true) ≠ [] →
      searchFoods b q n = stratResult b n (cq, some ["SR Legacy"], true) ∧
      searchFoodsCalls b q n = stratCalls b n (cq, some ["SR Legacy"], true)) ∧
    (stratResult b n (cq, some ["SR Legacy"], true) = [] →
      stratResult b n (cq, some ["Foundation"], true) ≠ [] →
      searchFoods b q n = stratResult b n (cq, some ["Foundation"], true) ∧
      searchFoodsCalls b q n =
        stratCalls b n (cq, some ["SR Legacy"], true) ++
        stratCalls b n (cq, some ["Foundation"], true)) ∧
    (stratResult b n (cq, some ["SR Legacy"], true) = [] →
      stratResult b n (cq, some ["Foundation"], true) = [] →
      stratResult b n (cq, some ["SR Legacy", "Foundation", "Survey (FNDDS)"], false) ≠ [] →
      searchFoods b q n =
        stratResult b n (cq, some ["SR Legacy", "Foundation", "Survey (FNDDS)"], false) ∧
      searchFoodsCalls b q n =
        stratCalls b n (cq, some ["SR Legacy"], true) ++
        stratCalls b n (cq, some ["Foundation"], true) ++
        stratCalls b n (cq, some ["SR Legacy", "Foundation", "Survey (FNDDS)"], false)) ∧
    (stratResult b n (cq, some ["SR Legacy"], true) = [] →
      stratResult b n (cq, some ["Foundation"], true) = [] →
      stratResult b n (cq, some ["SR Legacy", "Foundation", "Survey (FNDDS)"], false) = [] →
      stratResult b n (cq, none, false) ≠ [] →
      searchFoods b q n = stratResult b n (cq, none, false) ∧
      searchFoodsCalls b q n =
        stratCalls b n (cq, some ["SR Legacy"], true) ++
        stratCalls b n (cq, some ["Foundation"], true) ++
        stratCalls b n (cq, some ["SR Legacy", "Foundation", "Survey (FNDDS)"], false) ++
        stratCalls b n (cq, none, false)) ∧
    (stratResult b n (cq, some ["SR Legacy"], true) = [] →
      stratResult b n (cq, some ["Foundation"], true) = [] →
      stratResult b n (cq, some ["SR Legacy", "Foundation", "Survey (FNDDS)"], false) = [] →
      stratResult b n (cq, none, false) = [] →
      stratResult b n (simplifyQuery cq, none, false) ≠ [] →
      searchFoods b q n = stratResult b n (simplifyQuery cq, none, false) ∧
      searchFoodsCalls b q n =
        stratCalls b n (cq, some ["SR Legacy"], true) ++
        stratCalls b n (cq, some ["Foundation"], true) ++
        stratCalls b n (cq, some ["SR Legacy", "Foundation", "Survey (FNDDS)"], false) ++
        stratCalls b n (cq, none, false) ++
        stratCalls b n (simplifyQuery cq, none, false)) ∧
    (stratResult b n (cq, some ["SR Legacy"], true) = [] →
      stratResult b n (cq, some ["Foundation"], true) = [] →
      stratResult b n (cq, some ["SR Legacy", "Foundation", "Survey (FNDDS)"], false) = [] →
      stratResult b n (cq, none, false) = [] →
      stratResult b n (simplifyQuery cq, none, false) = [] →
      searchFoods b q n = [] ∧
      searchFoodsCalls b q n =
        stratCalls b n (cq, some ["SR Legacy"], true) ++
        stratCalls b n (cq, some ["Foundation"], true) ++
        stratCalls b n (cq, some ["SR Legacy", "Foundation", "Survey (FNDDS)"], false) ++
        stratCalls b n (cq, none, false) ++
        stratCalls b n (simplifyQuery cq, none, false)) := by
  have hT := searchFoodsT_of_clean_some b q cq n h
  have hF : searchFoods b q n =
      (tryStrategies b n (searchStrategies cq)).1 := by
    rw [searchFoods, hT]
  have hC : searchFoodsCalls b q n =
      (tryStrategies b n (searchStrategies cq)).2 := by
    rw [searchFoodsCalls, hT]
  rw [searchStrategies] at hF hC
  set s1 : Strat := (cq, some ["SR Legacy"], true) with hs1
  set s2 : Strat := (cq, some ["Foundation"], true) with hs2
  set s3 : Strat := (cq, some ["SR Legacy", "Foundation", "Survey (FNDDS)"], false) with hs3
  set s4 : Strat := (cq, none, false) with hs4
  set s5 : Strat := (simplifyQuery cq, none, false) with hs5
  refine ⟨?_, ?_, ?_, ?_, ?_, ?_⟩
  · intro h1
    have e1 := tryStrategies_cons_nonempty b n s1 [s2, s3, s4, s5] h1
    exact ⟨hF.trans e1.1, hC.trans e1.2⟩
  · intro h1 h2
    have e1 := tryStrategies_cons_empty b n s1 [s2, s3, s4, s5] h1
    have e2 := tryStrategies_cons_nonempty b n s2 [s3, s4, s5] h2
    constructor
    · rw [hF, e1.1, e2.1]
    · rw [hC, e1.2, e2.2]
  · intro h1 h2 h3
    have e1 := tryStrategies_cons_empty b n s1 [s2, s3, s4, s5] h1
    have e2 := tryStrategies_cons_empty b n s2 [s3, s4, s5] h2
    have e3 := tryStrategies_cons_nonempty b n s3 [s4, s5] h3
    constructor
    · rw [hF, e1.1, e2.1, e3.1]
    · rw [hC, e1.2, e2.2, e3.2, List.append_assoc]
  · intro h1 h2 h3 h4
    have e1 := tryStrategies_cons_empty b n s1 [s2, s3, s4, s5] h1
    have e2 := tryStrategies_cons_empty b n s2 [s3, s4, s5] h2
    have e3 := tryStrategies_cons_empty b n s3 [s4, s5] h3
    have e4 := tryStrategies_cons_nonempty b n s4 [s5] h4
    constructor
    · rw [hF, e1.1, e2.1, e3.1, e4.1]
    · rw [hC, e1.2, e2.2, e3.2, e4.2]
      simp [List.append_assoc]
  · intro h1 h2 h3 h4 h5
    have e1 := tryStrategies_cons_empty b n s1 [s2, s3, s4, s5] h1
    have e2 := tryStrategies_cons_empty b n s2 [s3, s4, s5] h2
    have e3 := tryStrategies_cons_empty b n s3 [s4, s5] h3
    have e4 := tryStrategies_cons_empty b n s4 [s5] h4
    have e5 := tryStrategies_cons_nonempty b n s5 [] h5
    constructor
    · rw [hF, e1.1, e2.1, e3.1, e4.1, e5.1]
    · rw [hC, e1.2, e2.2, e3.2, e4.2, e5.2]
      simp [List.append_assoc]
  · intro h1 h2 h3 h4 h5
    have e1 := tryStrategies_cons_empty b n s1 [s2, s3, s4, s5] h1
    have e2 := tryStrategies_cons_empty b n s2 [s3, s4, s5] h2
    have e3 := tryStrategies_cons_empty b n s3 [s4, s5] h3
    have e4 := tryStrategies_cons_empty b n s4 [s5] h4
    have e5 := tryStrategies_cons_empty b n s5 [] h5
    constructor
    · rw [hF, e1.1, e2.1, e3.1, e4.1, e5.1]
      rfl
    · rw [hC, e1.2, e2.2, e3.2, e4.2, e5.2]
      simp [List.append_assoc, tryStrategies]

theorem search_cascade_priority_order_witness :
    cleanQuery "egg" = some "egg" ∧
    stratResult bSR 5 ("egg", some ["SR Legacy"], true) ≠ [] ∧
    searchFoods bSR "egg" 5 = stratResult bSR 5 ("egg", some ["SR Legacy"], true) ∧
    searchFoodsCalls bSR "egg" 5 = stratCalls bSR 5 ("egg", some ["SR Legacy"], true) := by
  refine ⟨by decide, by decide, ?_⟩
  exact (search_cascade_priority_order bSR "egg" "egg" 5 (by decide)).1 (by decide)

theorem mkRat_3_10 : mkRat 3 10 = (3 : ℚ) / 10 := by
  rw [mkRat_eq_num_div_den]
  norm_num

theorem mkRat_1_2 : mkRat 1 2 = (1 : ℚ) / 2 := by
  rw [mkRat_eq_num_div_den]
  norm_num

theorem mkRat_2_5 : mkRat 2 5 = (2 : ℚ) / 5 := by
  rw [mkRat_eq_num_div_den]
  norm_num

/-- C4: `categorize_food_by_nutrients` is total — it always returns one of the
four category strings — and, when no keyword list matches the name, it follows
the nutrient-ratio rules in strict order (protein share over 30 percent, then
fat share over 50 percent, then carb share over 40 percent, then the low-carb
low-calorie vegetable rule) whenever calories are positive, and returns
`"proteins"` in every remaining case, including all-zero nutrients. -/
theorem categorize_total_and_ratio_order (f : Food) :
    (App.categorize_food_by_nutrients f = "proteins" ∨
     App.categorize_food_by_nutrients f = "carbs" ∨
     App.categorize_food_by_nutrients f = "vegetables" ∨
     App.categorize_food_by_nutrients f = "fats") ∧
    (App.protein_keywords.any (fun k => strContains (strLower f.name) k) = false →
     App.carb_keywords.any (fun k => strContains (strLower f.name) k) = false →
     App.vegetable_keywords.any (fun k => strContains (strLower f.name) k) = false →
     App.fat_keywords.any (fun k => strContains (strLower f.name) k) = false →
     App.categorize_food_by_nutrients f =
       (if 0 < dictGetD f.nutrients "calories" 0 then
          (if 3 / 10 <
              dictGetD f.nutrients "protein" 0 * 4 / dictGetD f.nutrients "calories" 0 then
            "proteins"
          else if 1 / 2 <
              dictGetD f.nutrients "fat" 0 * 9 / dictGetD f.nutrients "calories" 0 then
            "fats"
          else if 2 / 5 <
              dictGetD f.nutrients "carbs" 0 * 4 / dictGetD f.nutrients "calories" 0 then
            "carbs"
          else if dictGetD f.nutrients "carbs" 0 < 10 ∧
              dictGetD f.nutrients "calories" 0 < 50 then
            "vegetables"
          else "proteins")
        else "proteins")) := by
  constructor
  · simp only [App.categorize_food_by_nutrients]
    split_ifs <;> simp
  · intro hp hc hv hf
    simp only [App.categorize_food_by_nutrients, hp, hc, hv, hf, Bool.false_eq_true,
      if_false, qDiv_eq_div, qMul_eq_mul, mkRat_3_10, mkRat_1_2, mkRat_2_5]

theorem categorize_total_and_ratio_order_witness :
    App.protein_keywords.any (fun k => strContains (strLower "Mystery Item") k) = false ∧
    App.categorize_food_by_nutrients
      { name := "Mystery Item", nutrients := [], fdcId := none, dataType := "" } =
      "proteins" := by
  refine ⟨by decide, ?_⟩
  have h := (categorize_total_and_ratio_order
    { name := "Mystery Item", nutrients := [], fdcId := none, dataType := "" }).2
    (by decide) (by decide) (by decide) (by decide)
  rw [h]
  norm_num [dictGetD, dictGet]

/-- C5 counterexample: "Peanut Butter" does not classify as Fat — the
substring test matches the protein keyword "pea" in app.py (giving Protein)
and the vegetable keyword "pea" in usda_service.py (giving Vegetable). -/
theorem peanut_butter_not_fat_counterexample :
    App.categorize_food_by_nutrients
      { name := "Peanut Butter", nutrients := [], fdcId := none, dataType := "" } =
      "proteins" ∧
    Usda.categorize_food "Peanut Butter" = "vegetables" ∧
    App.categorize_food_by_nutrients
      { name := "Peanut Butter", nutrients := [], fdcId := none, dataType := "" } ≠
      "fats" ∧
    Usda.categorize_food "Peanut Butter" ≠ "fats" := by
  refine ⟨by decide, by decide, by decide, by decide⟩

/-- C5 (amended): keyword classification tests the lower-cased name against
the four curated lists in the fixed order protein, carbs, vegetables, fats
with the earliest matching list winning, regardless of nutrient values;
concretely, Grilled Chicken Breast classifies as Protein, Steamed Broccoli as
Vegetable, Olive Oil as Fat, Brown Rice as Carbohydrate — and Peanut Butter as
Protein (not Fat), because the substring test matches the protein keyword
"pea"; usda_service's name-only categorizer puts Peanut Butter in Vegetable. -/
theorem keyword_precedence_fixed_order (nutr : List (String × ℚ)) (fid : Option Int)
    (dt : String) :
    (∀ f : Food,
      (App.protein_keywords.any (fun k => strContains (strLower f.name) k) = true →
        App.categorize_food_by_nutrients f = "proteins") ∧
      (App.protein_keywords.any (fun k => strContains (strLower f.name) k) = false →
        App.carb_keywords.any (fun k => strContains (strLower f.name) k) = true →
        App.categorize_food_by_nutrients f = "carbs") ∧
      (App.protein_keywords.any (fun k => strContains (strLower f.name) k) = false →
        App.carb_keywords.any (fun k => strContains (strLower f.name) k) = false →
        App.vegetable_keywords.any (fun k => strContains (strLower f.name) k) = true →
        App.categorize_food_by_nutrients f = "vegetables") ∧
      (App.protein_keywords.any (fun k => strContains (strLower f.name) k) = false →
        App.carb_keywords.any (fun k => strContains (strLower f.name) k) = false →
        App.vegetable_keywords.any (fun k => strContains (strLower f.name) k) = false →
        App.fat_keywords.any (fun k => strContains (strLower f.name) k) = true →
        App.categorize_food_by_nutrients f = "fats")) ∧
    App.categorize_food_by_nutrients
      { name := "Grilled Chicken Breast", nutrients := nutr, fdcId := fid, dataType := dt } =
      "proteins" ∧
    App.categorize_food_by_nutrients
      { name := "Steamed Broccoli", nutrients := nutr, fdcId := fid, dataType := dt } =
      "vegetables" ∧
    App.categorize_food_by_nutrients
      { name := "Olive Oil", nutrients := nutr, fdcId := fid, dataType := dt } = "fats" ∧
    App.categorize_food_by_nutrients
      { name := "Brown Rice", nutrients := nutr, fdcId := fid, dataType := dt } = "carbs" ∧
    App.categorize_food_by_nutrients
      { name := "Peanut Butter", nutrients := nutr, fdcId := fid, dataType := dt } =
      "proteins" ∧
    Usda.categorize_food "Peanut Butter" = "vegetables" := by
  refine ⟨?_, ?_, ?_, ?_, ?_, ?_, by decide⟩
  · intro f
    exact ⟨categorize_app_of_protein_kw f,
      categorize_app_of_carb_kw f,
      categorize_app_of_vegetable_kw f,
      categorize_app_of_fat_kw f⟩
  · exact categorize_app_of_protein_kw _
      (by decide : App.protein_keywords.any
        (fun k => strContains (strLower "Grilled Chicken Breast") k) = true)
  · exact categorize_app_of_vegetable_kw _
      (by decide : App.protein_keywords.any
        (fun k => strContains (strLower "Steamed Broccoli") k) = false)
      (by decide : App.carb_keywords.any
        (fun k => strContains (strLower "Steamed Broccoli") k) = false)
      (by decide : App.vegetable_keywords.any
        (fun k => strContains (strLower "Steamed Broccoli") k) = true)
  · exact categorize_app_of_fat_kw _
      (by decide : App.protein_keywords.any
        (fun k => strContains (strLower "Olive Oil") k) = false)
      (by decide : App.carb_keywords.any
        (fun k => strContains (strLower "Olive Oil") k) = false)
      (by decide : App.vegetable_keywords.any
        (fun k => strContains (strLower "Olive Oil") k) = false)
      (by decide : App.fat_keywords.any
        (fun k => strContains (strLower "Olive Oil") k) = true)
  · exact categorize_app_of_carb_kw _
      (by decide : App.protein_keywords.any
        (fun k => strContains (strLower "Brown Rice") k) = false)
      (by decide : App.carb_keywords.any
        (fun k => strContains (strLower "Brown Rice") k) = true)
  · exact categorize_app_of_protein_kw _
      (by decide : App.protein_keywords.any
        (fun k => strContains (strLower "Peanut Butter") k) = true)

theorem keyword_precedence_fixed_order_witness :
    App.protein_keywords.any (fun k => strContains (strLower "tofu") k) = true ∧
    App.categorize_food_by_nutrients
      { name := "tofu", nutrients := [], fdcId := none, dataType := "" } = "proteins" :=
  ⟨by decide,
    ((keyword_precedence_fixed_order [] none "").1
      { name := "tofu", nutrients := [], fdcId := none, dataType := "" }).1 (by decide)⟩

/-- C10 counterexample: the two categorization implementations disagree on a
concrete record — `categorize_food` puts "Peanut Butter" in vegetables (its
vegetable list contains "pea") while `categorize_food_by_nutrients` puts it
in proteins (its protein list contains "pea"). -/
theorem categorize_implementations_disagree :
    Usda.categorize_food
        (Food.mk "Peanut Butter" [("calories", 588)] (some 9) "Branded").name ≠
      App.categorize_food_by_nutrients
        (Food.mk "Peanut Butter" [("calories", 588)] (some 9) "Branded") := by decide

/-- C10 (amended): the two categorization implementations do not agree on
every record — they disagree on "Peanut Butter", where `categorize_food`
returns vegetables and `categorize_food_by_nutrients` returns proteins — but
they do agree, both returning `"proteins"`, on every record whose name
contains a protein keyword of `categorize_food`'s list, which is a subset of
app.py's protein list. -/
theorem categorize_agree_on_usda_protein_keyword :
    (Usda.categorize_food
        (Food.mk "Peanut Butter" [("calories", 588)] (some 9) "Branded").name ≠
      App.categorize_food_by_nutrients
        (Food.mk "Peanut Butter" [("calories", 588)] (some 9) "Branded")) ∧
    (∀ f : Food,
      Usda.protein_keywords.any (fun k => strContains (strLower f.name) k) = true →
      Usda.categorize_food f.name = "proteins" ∧
      App.categorize_food_by_nutrients f = "proteins") := by
  constructor
  · decide
  · intro f h
    constructor
    · exact categorize_usda_of_protein_kw f.name h
    · apply categorize_app_of_protein_kw
      rw [List.any_eq_true] at h ⊢
      rcases h with ⟨k, hk, hcont⟩
      have hsub : ∀ x ∈ Usda.protein_keywords, x ∈ App.protein_keywords := by decide
      exact ⟨k, hsub k hk, hcont⟩

theorem categorize_agree_on_usda_protein_keyword_witness :
    Usda.protein_keywords.any (fun k => strContains (strLower "chicken") k) = true ∧
    Usda.categorize_food "chicken" = "proteins" ∧
    App.categorize_food_by_nutrients
      { name := "chicken", nutrients := [], fdcId := none, dataType := "" } =
      "proteins" := by
  refine ⟨by decide, ?_⟩
  exact categorize_agree_on_usda_protein_keyword.2
    { name := "chicken", nutrients := [], fdcId := none, dataType := "" } (by decide)

/-- The food entries carried by a response (empty for every failure mode). -/
def respFoods : Resp → List FoodEntry
  | .ok data => data
  | _ => []

theorem searchWithParams_ok_backend (b : Backend) (q : String) (n : Nat)
    (dts : Option (List String)) (raw : Bool) (l : List Food)
    (h : (searchWithParams b q n dts raw).1 = .ok l) :
    l = [] ∨ ∃ p, l = parseFoodData (respFoods (b p)) n := by
  rw [searchWithParams] at h
  rcases h1 : b (mkParams q n dts raw) with data | _ | _ | _ | _ <;>
    simp only [h1] at h
  · injection h with h2
    refine Or.inr ⟨mkParams q n dts raw, ?_⟩
    rw [h1]
    exact h2.symm
  · cases h
  · rcases hraw : raw with _ | _
    · rw [hraw] at h
      simp only [Bool.false_eq_true, if_false] at h
      cases h
      exact Or.inl rfl
    · rw [hraw] at h
      simp only [if_true] at h
      rcases h2 : b { mkParams q n dts true with requireAllWords := false } with
        data2 | _ | _ | _ | _ <;> simp only [h2] at h
      · injection h with h3
        refine Or.inr ⟨{ mkParams q n dts true with requireAllWords := false }, ?_⟩
        rw [h2]
        exact h3.symm
      · cases h
      · cases h; exact Or.inl rfl
      · cases h; exact Or.inl rfl
      · cases h; exact Or.inl rfl
  · cases h
    exact Or.inl rfl
  · cases h
    exact Or.inl rfl

theorem searchFoods_shape_backend (b : Backend) (q : String) (n : Nat) :
    searchFoods b q n = [] ∨
      ∃ p, searchFoods b q n = parseFoodData (respFoods (b p)) n := by
  rw [searchFoods, searchFoodsT]
  split
  · exact Or.inl rfl
  · rcases hc : cleanQuery q with _ | cq
    · exact Or.inl rfl
    · simp only
      rcases tryStrategies_result_cases b n (searchStrategies cq) with h | ⟨s, _, he⟩
      · exact Or.inl h
      · rw [he]
        simp only [stratResult]
        rcases hr : (searchWithParams b s.1 n s.2.1 s.2.2).1 with e | l
        · exact Or.inl rfl
        · rcases searchWithParams_ok_backend b s.1 n s.2.1 s.2.2 l hr with h2 | ⟨p, h2⟩
          · exact Or.inl h2
          · exact Or.inr ⟨p, h2⟩

/-- A backend entry with a negative protein value, answered only for the
SR Legacy strategy. -/
def negProteinEntry : FoodEntry :=
  { description := "Strange Milk", fdcId := some 4, dataType := some "SR Legacy",
    foodNutrients :=
      [{ nutrientId := some 1003, nutrientName := "Protein", value := some (-5) }] }

/-- A backend serving the entry with the negative protein value. -/
def bNeg : Backend := fun p =>
  if p.dataType = some ["SR Legacy"] then .ok [negProteinEntry] else .otherStatus

/-- C8 counterexample: nutrient extraction passes negative source values
through unchanged, so a backend entry with protein −5 produces a returned
record whose protein value is −5, violating non-negativity. -/
theorem negative_nutrient_counterexample :
    (searchFoods bNeg "milk" 5).map (fun f => dictGet f.nutrients "protein") =
      [some (-5)] ∧ ¬ (0 ≤ (-5 : ℚ)) := by
  refine ⟨by decide, by decide⟩

/-- C8 (amended): every record returned by `search_foods` has exactly the four
nutrient keys calories, protein, carbs and fat, with keys unseen (or
zero-valued) in the source defaulted to 0 — an entry carrying only a calories
value yields protein 0, carbs 0, fat 0 — and the values are non-negative
whenever the backend's nutrient values are non-negative (negative source
values are passed through unchanged, not clamped). -/
theorem nutrient_keys_complete_and_defaulted (b : Backend) (q : String) (n : Nat) :
    (∀ f ∈ searchFoods b q n, ∀ k,
      (dictGet f.nutrients k).isSome = true ↔
        k ∈ ["calories", "protein", "carbs", "fat"]) ∧
    ((∀ p fe, fe ∈ respFoods (b p) → ∀ e ∈ fe.foodNutrients,
        ∀ v, e.value = some v → 0 ≤ v) →
      ∀ f ∈ searchFoods b q n, ∀ k v, dictGet f.nutrients k = some v → 0 ≤ v) ∧
    extractNutrients
        [{ nutrientId := some 1008, nutrientName := "Energy", value := some 52 }] =
      [("calories", 52), ("protein", 0), ("carbs", 0), ("fat", 0)] := by
  refine ⟨?_, ?_, by decide⟩
  · intro f hf k
    rcases searchFoods_shape b q n with h | ⟨data, h⟩
    · rw [h] at hf
      cases hf
    · rw [h, parseFoodData] at hf
      rcases parseGo_mem n data [] [] f hf with h2 | ⟨fe, _, h2⟩
      · cases h2
      · subst h2
        exact extractNutrients_keys fe.foodNutrients k
  · intro hsrc f hf k v hget
    rcases searchFoods_shape_backend b q n with h | ⟨p, h⟩
    · rw [h] at hf
      cases hf
    · rw [h, parseFoodData] at hf
      rcases parseGo_mem n (respFoods (b p)) [] [] f hf with h2 | ⟨fe, hmem, h2⟩
      · cases h2
      · subst h2
        refine extractNutrients_values fe.foodNutrients (fun x => 0 ≤ x) le_rfl ?_ k v hget
        intro e he v2 hv2
        have h0 := hsrc p fe hmem e he v2 hv2
        exact ⟨round1_nonneg v2 h0, round0_nonneg v2 h0⟩

theorem nutrient_keys_complete_and_defaulted_witness :
    (∀ p fe, fe ∈ respFoods (bSR p) → ∀ e ∈ fe.foodNutrients,
      ∀ v, e.value = some v → 0 ≤ v) ∧
    (∀ f ∈ searchFoods bSR "egg" 5, ∀ k v,
      dictGet f.nutrients k = some v → 0 ≤ v) := by
  have hsrc : ∀ p fe, fe ∈ respFoods (bSR p) → ∀ e ∈ fe.foodNutrients,
      ∀ v, e.value = some v → 0 ≤ v := by
    intro p fe hfe e he v hv
    rw [bSR] at hfe
    split_ifs at hfe with hp
    · simp only [respFoods, List.mem_singleton] at hfe
      subst hfe
      simp only [eggEntry, List.mem_singleton] at he
      subst he
      simp only at hv
      injection hv with hv2
      rw [← hv2]
      norm_num
    · simp [respFoods] at hfe
  exact ⟨hsrc, (nutrient_keys_complete_and_defaulted bSR "egg" 5).2.1 hsrc⟩

/-- A data-poor backend entry: non-empty name, no usable nutrients. -/
def dataPoorEntry : FoodEntry :=
  { description := "A", fdcId := some 1, dataType := some "SR Legacy",
    foodNutrients := [] }

/-- A data-rich backend entry whose name equals the data-poor entry's name up
to case. -/
def dataRichEntry : FoodEntry :=
  { description := "a", fdcId := some 2, dataType := some "SR Legacy",
    foodNutrients :=
      [{ nutrientId := some 1003, nutrientName := "Protein", value := some 5 }] }

/-- C3 counterexample: deduplication only tracks accepted entries — an entry
discarded as data-poor is never added to the seen set, so a later entry with
the same lower-cased name is returned, contradicting the claim that no output
record shares a lower-cased name with any earlier backend entry that has a
non-empty name. -/
theorem parse_dedup_counterexample :
    (parseFoodData [dataPoorEntry, dataRichEntry] 10).map (fun f => f.name) = ["a"] ∧
    trimChars dataPoorEntry.description ≠ "" ∧
    strLower (trimChars dataPoorEntry.description) = strLower "a" := by
  refine ⟨by decide, by decide, by decide⟩

/-- The three-entry fixture of the deduplication example. -/
def chickenRawEntry : FoodEntry :=
  { description := "Chicken Breast, raw", fdcId := some 11, dataType := some "SR Legacy",
    foodNutrients :=
      [{ nutrientId := some 1003, nutrientName := "Protein", value := some 31 }] }

/-- The same name as `chickenRawEntry` up to case. -/
def chickenRawUpperEntry : FoodEntry :=
  { description := "chicken breast, RAW", fdcId := some 12, dataType := some "SR Legacy",
    foodNutrients :=
      [{ nutrientId := some 1003, nutrientName := "Protein", value := some 30 }] }

/-- The third entry of the deduplication example. -/
def eggsEntry : FoodEntry :=
  { description := "Eggs", fdcId := some 13, dataType := some "SR Legacy",
    foodNutrients :=
      [{ nutrientId := some 1003, nutrientName := "Protein", value := some 13 }] }

/-- C3 (amended): post-processing discards entries with empty or missing
names, deduplicates case-insensitively against previously accepted entries
(keeping the first accepted occurrence in source order; an entry discarded as
data-poor does not block a later same-named entry), discards entries whose
extracted calories and protein are both zero, and caps at `maxResults`;
consequently output names are pairwise case-insensitively distinct and
non-empty, every record keeps calories or protein non-zero, and the
Chicken/Eggs example returns exactly two records in first-seen order. -/
theorem parse_postprocessing (data : List FoodEntry) (n : Nat) :
    List.Pairwise (fun f g => strLower f.name ≠ strLower g.name)
      (parseFoodData data n) ∧
    (∀ f ∈ parseFoodData data n, f.name ≠ "" ∧
      ¬(dictGetD f.nutrients "calories" 0 = 0 ∧
        dictGetD f.nutrients "protein" 0 = 0)) ∧
    (parseFoodData [chickenRawEntry, chickenRawUpperEntry, eggsEntry] 10).map
      (fun f => f.name) = ["Chicken Breast, raw", "Eggs"] := by
  refine ⟨?_, ?_, by decide⟩
  · exact (parseGo_invariant n data [] [] (by simp) (by simp) (by simp)).1
  · exact (parseGo_invariant n data [] [] (by simp) (by simp) (by simp)).2

theorem parse_postprocessing_witness :
    List.Pairwise (fun f g => strLower f.name ≠ strLower g.name)
      (parseFoodData [chickenRawEntry, chickenRawUpperEntry, eggsEntry] 10) ∧
    (mkFoodRec eggsEntry).name ≠ "" :=
  ⟨(parse_postprocessing [chickenRawEntry, chickenRawUpperEntry, eggsEntry] 10).1,
   ((parse_postprocessing [chickenRawEntry, chickenRawUpperEntry, eggsEntry] 10).2.1
      (mkFoodRec eggsEntry) (by decide)).1⟩
